import Mathlib

/-!
Verification of the wavelet-bench benchmark pipeline (scripts/bench.py,
scripts/stats.py, scripts/encode.py).

The numeric parts of the pipeline (PSNR-to-MSE conversion and the
weighted-XPSNR derivation) are embedded over the real numbers, modelling
Python float arithmetic as exact real arithmetic.  The string-processing
parts (destination-path derivation, regex extraction of metric values,
probe-output parsing) are embedded as computable functions on `String` /
`List Char`, and the parsed metric values as exact rationals.  Python
exceptions are modelled with `Except`; integer division and `int()`
truncation follow Python semantics (truncation toward zero).
-/

namespace WaveletBench

/-- Embedding of `psnr_to_mse` (scripts/bench.py, lines 392-396):
`return (m**2) / (10 ** (p / 10))`, with the Python int `m` as `ℤ` and
float arithmetic as real arithmetic (`10 ** (p/10)` is a real power). -/
noncomputable def psnr_to_mse (p : ℝ) (m : ℤ) : ℝ :=
  ((m : ℝ) ^ 2) / (10 : ℝ) ^ (p / 10)

/-- Embedding of the weighted-XPSNR computation at the end of
`DstVideo.calculate_xpsnr` (scripts/bench.py, lines 165-170), as a pure
function of the three extracted plane values `xpsnr_y/u/v`. -/
noncomputable def calculate_xpsnr_w (y u v : ℝ) : ℝ :=
  let maxval : ℤ := 255
  let xpsnr_mse_y : ℝ := psnr_to_mse y maxval
  let xpsnr_mse_u : ℝ := psnr_to_mse u maxval
  let xpsnr_mse_v : ℝ := psnr_to_mse v maxval
  let w_xpsnr_mse : ℝ := ((4.0 * xpsnr_mse_y) + xpsnr_mse_u + xpsnr_mse_v) / 6.0
  10.0 * Real.logb 10 (((maxval : ℝ) ^ 2) / w_xpsnr_mse)

/-- The spec's three-step weighted-XPSNR derivation (spec §4.4), written
from the spec's own words: `mse = peak² / 10^(psnr/10)`,
`weightedMse = (4·mseY + mseU + mseV) / 6`,
`weightedXpsnr = 10·log10(peak² / weightedMse)`, with peak 255. -/
noncomputable def spec_weightedXpsnr (y u v : ℝ) : ℝ :=
  let peak : ℝ := 255
  let mseY : ℝ := peak ^ 2 / (10 : ℝ) ^ (y / 10)
  let mseU : ℝ := peak ^ 2 / (10 : ℝ) ^ (u / 10)
  let mseV : ℝ := peak ^ 2 / (10 : ℝ) ^ (v / 10)
  let weightedMse : ℝ := (4 * mseY + mseU + mseV) / 6
  10 * Real.logb 10 (peak ^ 2 / weightedMse)

/-- Conversion from a (weighted) MSE back to decibels, `10*log10(m^2 / mse)`,
as used by the spec's round-trip property (§8) with weight 1. -/
noncomputable def mse_to_db (mse : ℝ) (m : ℤ) : ℝ :=
  10 * Real.logb 10 (((m : ℝ) ^ 2) / mse)

/-- C2: the code's weighted-XPSNR computation coincides with the spec's
three-step formula (peak 255) at every triple of plane values. -/
theorem calculate_xpsnr_w_eq_spec (y u v : ℝ) :
    calculate_xpsnr_w y u v = spec_weightedXpsnr y u v := by
  simp only [calculate_xpsnr_w, spec_weightedXpsnr, psnr_to_mse]
  norm_num

/-- C4 (amended): for every PSNR `p` and every nonzero peak `m`, converting
PSNR to MSE via `psnr_to_mse` and back to decibels with weight 1 returns `p`
(within the 1e-9 tolerance the spec allows; over the reals the round trip is
exact). -/
theorem psnr_mse_roundtrip (p : ℝ) (m : ℤ) (hm : m ≠ 0) :
    |mse_to_db (psnr_to_mse p m) m - p| < 1e-9 := by
  have hm2 : ((m : ℝ) ^ 2) ≠ 0 := by
    have : (m : ℝ) ≠ 0 := Int.cast_ne_zero.mpr hm
    positivity
  have hpow : (0 : ℝ) < (10 : ℝ) ^ (p / 10) :=
    Real.rpow_pos_of_pos (by norm_num) _
  have hdiv : ((m : ℝ) ^ 2) / psnr_to_mse p m = (10 : ℝ) ^ (p / 10) := by
    rw [psnr_to_mse]
    field_simp
  rw [mse_to_db, hdiv, Real.logb_rpow (by norm_num) (by norm_num)]
  have : 10 * (p / 10) - p = 0 := by ring
  rw [this]
  norm_num

/-- Witness for `psnr_mse_roundtrip` at `p = 40`, `m = 255`. -/
theorem psnr_mse_roundtrip_witness :
    |mse_to_db (psnr_to_mse 40 255) 255 - 40| < 1e-9 :=
  psnr_mse_roundtrip 40 255 (by decide)

/-- C4 counterexample: at peak `m = 0` the round trip does not return `p`
(in the Python source, `(m**2)/mse` is `0.0/0.0` and raises
`ZeroDivisionError`; in the real-valued embedding the division-by-zero
convention yields 0, which is not within 1e-9 of `p = 10`). -/
theorem psnr_mse_roundtrip_cex :
    ¬ |mse_to_db (psnr_to_mse 10 0) 0 - 10| < 1e-9 := by
  have h0 : mse_to_db (psnr_to_mse 10 0) 0 = 0 := by
    simp [mse_to_db, psnr_to_mse, Real.logb_zero]
  rw [h0]
  norm_num

/-- C10: when all three plane XPSNR fields are 0.0 (as after a parse miss of
the XPSNR pattern), each plane's MSE is `255^2`, the weighted MSE is `255^2`,
and the derived weighted XPSNR is exactly 0. -/
theorem calculate_xpsnr_w_zero :
    psnr_to_mse 0 255 = (255 : ℝ) ^ 2 ∧
    (4 * psnr_to_mse 0 255 + psnr_to_mse 0 255 + psnr_to_mse 0 255) / 6
      = (255 : ℝ) ^ 2 ∧
    calculate_xpsnr_w 0 0 0 = 0 := by
  have hmse : psnr_to_mse 0 255 = (255 : ℝ) ^ 2 := by
    simp [psnr_to_mse]
  refine ⟨hmse, by rw [hmse]; ring, ?_⟩
  simp only [calculate_xpsnr_w, psnr_to_mse]
  norm_num

/-- Helper: the weighted-XPSNR computation written without the local
bindings, with the peak cast evaluated. -/
theorem calculate_xpsnr_w_eq (y u v : ℝ) :
    calculate_xpsnr_w y u v =
      10 * Real.logb 10 ((255 : ℝ) ^ 2 /
        ((4 * psnr_to_mse y 255 + psnr_to_mse u 255 + psnr_to_mse v 255) / 6)) := by
  simp only [calculate_xpsnr_w]
  norm_num

/-- C3: for plane values Y=40, U=42, V=42 with peak 255, the derived
weighted XPSNR lies strictly between 40 and 42. -/
theorem calculate_xpsnr_w_between :
    40 < calculate_xpsnr_w 40 42 42 ∧ calculate_xpsnr_w 40 42 42 < 42 := by
  have h10 : (1 : ℝ) < 10 := by norm_num
  have hpA : (0 : ℝ) < (10 : ℝ) ^ (4 : ℝ) := Real.rpow_pos_of_pos (by norm_num) _
  have hpB : (0 : ℝ) < (10 : ℝ) ^ (21 / 5 : ℝ) := Real.rpow_pos_of_pos (by norm_num) _
  have hA : psnr_to_mse 40 255 = (255 : ℝ) ^ 2 / (10 : ℝ) ^ (4 : ℝ) := by
    rw [psnr_to_mse]; norm_num
  have hB : psnr_to_mse 42 255 = (255 : ℝ) ^ 2 / (10 : ℝ) ^ (21 / 5 : ℝ) := by
    rw [psnr_to_mse]; norm_num
  have hApos : 0 < psnr_to_mse 40 255 := by rw [hA]; positivity
  have hBpos : 0 < psnr_to_mse 42 255 := by rw [hB]; positivity
  have hplt : (10 : ℝ) ^ (4 : ℝ) < (10 : ℝ) ^ (21 / 5 : ℝ) :=
    Real.rpow_lt_rpow_of_exponent_lt h10 (by norm_num)
  have hBA : psnr_to_mse 42 255 < psnr_to_mse 40 255 := by
    rw [hA, hB]
    exact div_lt_div_of_pos_left (by norm_num) hpA hplt
  set M : ℝ :=
    (4 * psnr_to_mse 40 255 + psnr_to_mse 42 255 + psnr_to_mse 42 255) / 6 with hM
  have hBM : psnr_to_mse 42 255 < M := by rw [hM]; linarith
  have hMA : M < psnr_to_mse 40 255 := by rw [hM]; linarith
  have hMpos : 0 < M := lt_trans hBpos hBM
  have h1 : (255 : ℝ) ^ 2 / psnr_to_mse 40 255 = (10 : ℝ) ^ (4 : ℝ) := by
    rw [hA]; field_simp
  have h2 : (255 : ℝ) ^ 2 / psnr_to_mse 42 255 = (10 : ℝ) ^ (21 / 5 : ℝ) := by
    rw [hB]; field_simp
  have hlt1 : (255 : ℝ) ^ 2 / psnr_to_mse 40 255 < (255 : ℝ) ^ 2 / M :=
    div_lt_div_of_pos_left (by norm_num) hMpos hMA
  have hlt2 : (255 : ℝ) ^ 2 / M < (255 : ℝ) ^ 2 / psnr_to_mse 42 255 :=
    div_lt_div_of_pos_left (by norm_num) hBpos hBM
  have hxpos : (0 : ℝ) < (255 : ℝ) ^ 2 / psnr_to_mse 40 255 := by positivity
  have hmpos : (0 : ℝ) < (255 : ℝ) ^ 2 / M := by positivity
  have hlog1 : Real.logb 10 ((255 : ℝ) ^ 2 / psnr_to_mse 40 255) <
      Real.logb 10 ((255 : ℝ) ^ 2 / M) :=
    Real.logb_lt_logb h10 hxpos hlt1
  have hlog2 : Real.logb 10 ((255 : ℝ) ^ 2 / M) <
      Real.logb 10 ((255 : ℝ) ^ 2 / psnr_to_mse 42 255) :=
    Real.logb_lt_logb h10 hmpos hlt2
  have he1 : Real.logb 10 ((255 : ℝ) ^ 2 / psnr_to_mse 40 255) = 4 := by
    rw [h1]; exact Real.logb_rpow (by norm_num) (by norm_num)
  have he2 : Real.logb 10 ((255 : ℝ) ^ 2 / psnr_to_mse 42 255) = 21 / 5 := by
    rw [h2]; exact Real.logb_rpow (by norm_num) (by norm_num)
  rw [calculate_xpsnr_w_eq, ← hM]
  constructor
  · rw [he1] at hlog1; linarith
  · rw [he2] at hlog2; linarith

/-- Split a character list at its last `'.'`: returns the part before the
dot and the part from the dot on, or `none` when no dot occurs. -/
def splitAtLastDot : List Char → Option (List Char × List Char)
  | [] => none
  | c :: rest =>
    match splitAtLastDot rest with
    | some (pre, post) => some (c :: pre, post)
    | none => if c = '.' then some ([], c :: rest) else none

/-- Embedding of Python `os.path.splitext` for names without a path
separator (the inputs the pipeline feeds it are basenames and derived
output names): splits at the last `'.'` unless every character before it
is itself a `'.'` (leading dots are kept with the root). -/
def splitextList (l : List Char) : List Char × List Char :=
  match splitAtLastDot l with
  | some (pre, post) =>
    if pre.any (fun c => c ≠ '.') then (pre, post) else (l, [])
  | none => (l, [])

/-- Lift of `splitextList` to `String`. -/
def os_path_splitext (s : String) : String × String :=
  let p := splitextList s.data
  (String.mk p.1, String.mk p.2)

/-- Embedding of `VideoEnc.get_ext` (scripts/bench.py, lines 223-234). -/
def get_ext (encoder : String) : String :=
  if encoder = "dirac" then "mkv"
  else if encoder = "snow" then "avi"
  else if encoder = "x264" then "264"
  else "dsv"

/-- Embedding of the destination-path logic of `VideoEnc.__init__`
(scripts/bench.py, lines 216-221): when no explicit destination is given
(`dst_pth` empty, hence falsy), derive
`<source stem>_<encoder>_q<quality>.<ext>`. -/
def videoEnc_dst_pth (srcName : String) (q : ℤ) (encoder : String)
    (dst_pth : String) : String :=
  if dst_pth = "" then
    (os_path_splitext srcName).1 ++ "_" ++ encoder ++ "_q" ++ toString q
      ++ "." ++ get_ext encoder
  else dst_pth

/-- Embedding of the `encoder_args if encoder_args else [""]` normalization
in `VideoEnc.__init__` (scripts/bench.py, line 214). -/
def normalized_args (encoder_args : List String) : List String :=
  if encoder_args = [] then [""] else encoder_args

/-- Embedding of the encoder-command construction in `VideoEnc.encode`
(scripts/bench.py, lines 241-272): only `x264` and `dsv2` get an encoder
command; `snow` encodes inside the ffmpeg command, and any other encoder
identifier leaves `enc_cmd` as the empty list. -/
def encode_enc_cmd (encoder : String) (q : ℤ) (dst_pth : String)
    (encoder_args : List String) : List String :=
  if encoder = "x264" then
    ["x264", "--demuxer", "y4m", "--crf", toString q, "-o", dst_pth, "-"]
      ++ (if encoder_args ≠ [""] then encoder_args else [])
  else if encoder = "dsv2" then
    ["dsv2", "e", "-inp=-", "-out=" ++ dst_pth, "-qp=" ++ toString q, "-y"]
      ++ (if encoder_args ≠ [""] then encoder_args else [])
  else []

/-- Embedding of the final value of `dec_pth` in `VideoEnc.encode`
(scripts/bench.py, lines 243-377): initialized to the empty string, set to
`dst_pth` for `x264`, to `<stem>_decoded.y4m` for `dsv2`, and to `dst_pth`
for `snow`; any other encoder (in particular `dirac`) leaves it empty. -/
def encode_dec_pth (encoder : String) (dst_pth : String) : String :=
  if encoder = "x264" then dst_pth
  else if encoder = "dsv2" then (os_path_splitext dst_pth).1 ++ "_decoded.y4m"
  else if encoder = "snow" then dst_pth
  else ""

/-- The two constructor arguments of the `DstVideo(dec_pth, self.dst_pth)`
returned by `VideoEnc.encode` (scripts/bench.py, line 379): the comparison
path and the actual encoded-bitstream path. -/
structure DstVideoPaths where
  path : String
  enc_path : String
deriving DecidableEq

/-- The `EncodedResult` paths returned by `VideoEnc.encode`. -/
def encode_result (encoder : String) (dst_pth : String) : DstVideoPaths :=
  ⟨encode_dec_pth encoder dst_pth, dst_pth⟩

/-- C5: the derived destination path is deterministic: the extension table
is x264→264, dirac→mkv, snow→avi, dsv2 (the remaining encoder)→dsv; for
every source name, encoder and quality the derived path is
`<stem>_<encoder>_q<quality>.<ext>`; and in particular `clip.mp4` with
`x264` at quality 23 yields `clip_x264_q23.264`. -/
theorem derived_dst_path_deterministic :
    get_ext "x264" = "264" ∧ get_ext "dirac" = "mkv" ∧
    get_ext "snow" = "avi" ∧ get_ext "dsv2" = "dsv" ∧
    (∀ (name encoder : String) (q : ℤ),
      videoEnc_dst_pth name q encoder "" =
        (os_path_splitext name).1 ++ "_" ++ encoder ++ "_q" ++ toString q
          ++ "." ++ get_ext encoder) ∧
    videoEnc_dst_pth "clip.mp4" 23 "x264" "" = "clip_x264_q23.264" := by
  refine ⟨rfl, rfl, rfl, rfl, fun name encoder q => ?_, by decide⟩
  simp [videoEnc_dst_pth]

/-- C1 (code-bug evidence): for the `dirac` member of the encoder set,
`encode` constructs no encoder command (`enc_cmd` stays `[]`, so launching
it fails) and leaves the comparison path empty, so the returned
`EncodedResult` does not have a non-empty comparison path; the other three
encoders do yield a non-empty comparison path. -/
theorem encode_dirac_empty_comparison_path :
    (encode_result "dirac" (videoEnc_dst_pth "clip.mp4" 23 "dirac" "")).path = "" ∧
    encode_enc_cmd "dirac" 23 (videoEnc_dst_pth "clip.mp4" 23 "dirac" "")
      (normalized_args []) = [] ∧
    (encode_result "x264" "clip_x264_q23.264").path = "clip_x264_q23.264" ∧
    (encode_result "snow" "clip_snow_q23.avi").path = "clip_snow_q23.avi" ∧
    (encode_result "dsv2" "clip_dsv2_q23.dsv").path = "clip_dsv2_q23_decoded.y4m" := by
  refine ⟨rfl, rfl, rfl, rfl, ?_⟩
  decide

/-- Numeric value of an ASCII digit. -/
def digitToNat (c : Char) : ℕ := c.toNat - 48

/-- Python `\s` (ASCII range): space, tab, newline, carriage return,
vertical tab, form feed. -/
def pyIsSpace (c : Char) : Bool :=
  c = ' ' || c = '\t' || c = '\n' || c = '\r' || c = '\x0b' || c = '\x0c'

/-- Match a literal character sequence at the head of the input, returning
the rest on success. -/
def matchLit : List Char → List Char → Option (List Char)
  | [], l => some l
  | _ :: _, [] => none
  | p :: ps, c :: cs => if c = p then matchLit ps cs else none

/-- Value of a digit run read in base 10. -/
def digitsVal (ds : List Char) : ℕ :=
  ds.foldl (fun n c => 10 * n + digitToNat c) 0

/-- Match `\d+` at the head of the input (one or more ASCII digits). -/
def takeDigits1 (l : List Char) : Option (List Char × List Char) :=
  let d := l.takeWhile Char.isDigit
  if d.isEmpty then none else some (d, l.drop d.length)

/-- Match the regex fragment `\d+\.\d+` at the head of the input, returning
the matched decimal as an exact rational together with the rest. -/
def matchNumberAt (l : List Char) : Option (ℚ × List Char) :=
  match takeDigits1 l with
  | none => none
  | some (ip, r1) =>
    match r1 with
    | '.' :: r2 =>
      match takeDigits1 r2 with
      | none => none
      | some (fp, r3) =>
        some ((digitsVal ip : ℚ) + (digitsVal fp : ℚ) / (10 : ℚ) ^ fp.length, r3)
    | _ => none

/-- Search, in the manner of `re.search`, for a pattern of the form
`<literal>(\d+\.\d+)`, scanning
match positions left to right: models the extraction regexes
`average:(\d+\.\d+)` and `All:(\d+\.\d+)` of `DstVideo.calculate_psnr_ssim`
(scripts/bench.py, lines 122-126). -/
def searchLitNumber (lit : List Char) : List Char → Option ℚ
  | [] => none
  | c :: rest =>
    match matchLit lit (c :: rest) with
    | some r =>
      match matchNumberAt r with
      | some (v, _) => some v
      | none => searchLitNumber lit rest
    | none => searchLitNumber lit rest

/-- Match `\s+` at the head of the input. -/
def matchWs1 (l : List Char) : Option (List Char) :=
  let w := l.takeWhile pyIsSpace
  if w.isEmpty then none else some (l.drop w.length)

/-- Skip `\s*` at the head of the input. -/
def skipWs (l : List Char) : List Char := l.dropWhile pyIsSpace

/-- Match the XPSNR regex
`XPSNR\s+y:\s*(\d+\.\d+)\s+u:\s*(\d+\.\d+)\s+v:\s*(\d+\.\d+)`
(scripts/bench.py, line 154) at the head of the input. -/
def matchXpsnrAt (l : List Char) : Option (ℚ × ℚ × ℚ) := do
  let r1 ← matchLit "XPSNR".data l
  let r2 ← matchWs1 r1
  let r3 ← matchLit "y:".data r2
  let (vy, r4) ← matchNumberAt (skipWs r3)
  let r5 ← matchWs1 r4
  let r6 ← matchLit "u:".data r5
  let (vu, r7) ← matchNumberAt (skipWs r6)
  let r8 ← matchWs1 r7
  let r9 ← matchLit "v:".data r8
  let (vv, _) ← matchNumberAt (skipWs r9)
  pure (vy, vu, vv)

/-- Search for the XPSNR pattern, scanning positions left to right as
`re.search` does. -/
def searchXpsnr : List Char → Option (ℚ × ℚ × ℚ)
  | [] => none
  | c :: rest =>
    match matchXpsnrAt (c :: rest) with
    | some v => some v
    | none => searchXpsnr rest

/-- Embedding of the field assignments of `DstVideo.calculate_psnr_ssim`
(scripts/bench.py, lines 122-126) as a function of the backend's textual
report: `(psnr, ssim)`, each the extracted value or 0 on a regex miss.
The function is total: a miss is never a fault. -/
def calculate_psnr_ssim_fields (report : String) : ℚ × ℚ :=
  (match searchLitNumber "average:".data report.data with
   | some v => v
   | none => 0,
   match searchLitNumber "All:".data report.data with
   | some v => v
   | none => 0)

/-- Embedding of the plane-field assignments of `DstVideo.calculate_xpsnr`
(scripts/bench.py, lines 154-163): `(xpsnr_y, xpsnr_u, xpsnr_v)`, all three
set to 0.0 when the XPSNR pattern is absent. Total: a miss is never a
fault. -/
def calculate_xpsnr_fields (report : String) : ℚ × ℚ × ℚ :=
  match searchXpsnr report.data with
  | some t => t
  | none => (0, 0, 0)

/-- C8: a missing metric pattern yields exactly 0 for the affected
field(s): a miss of the PSNR pattern leaves `psnr` at 0, a miss of the SSIM
pattern leaves `ssim` at 0, and a miss of the XPSNR pattern sets all three
plane fields to 0; the (total) computation raises no fault in any case. -/
theorem metric_parse_miss_zero (s : String) :
    (searchLitNumber "average:".data s.data = none →
      (calculate_psnr_ssim_fields s).1 = 0) ∧
    (searchLitNumber "All:".data s.data = none →
      (calculate_psnr_ssim_fields s).2 = 0) ∧
    (searchXpsnr s.data = none → calculate_xpsnr_fields s = (0, 0, 0)) := by
  refine ⟨fun h => ?_, fun h => ?_, fun h => ?_⟩ <;>
    simp [calculate_psnr_ssim_fields, calculate_xpsnr_fields, h]

/-- Witness for `metric_parse_miss_zero` on a report containing none of the
three patterns. -/
theorem metric_parse_miss_zero_witness :
    (calculate_psnr_ssim_fields "no scores here").1 = 0 ∧
    (calculate_psnr_ssim_fields "no scores here").2 = 0 ∧
    calculate_xpsnr_fields "no scores here" = (0, 0, 0) :=
  ⟨(metric_parse_miss_zero "no scores here").1 rfl,
   (metric_parse_miss_zero "no scores here").2.1 rfl,
   (metric_parse_miss_zero "no scores here").2.2 rfl⟩

/-- Python `str.strip()` (ASCII whitespace). -/
def pyStrip (l : List Char) : List Char :=
  ((l.dropWhile pyIsSpace).reverse.dropWhile pyIsSpace).reverse

/-- Python `str.split(sep)` for a one-character separator: no collapsing of
adjacent separators, and the empty string splits to `[""]`. -/
def splitOnChar (sep : Char) : List Char → List (List Char)
  | [] => [[]]
  | c :: rest =>
    let r := splitOnChar sep rest
    if c = sep then [] :: r
    else
      match r with
      | h :: t => (c :: h) :: t
      | [] => [[c]]

/-- Digits of a Python integer literal after the first digit: digits with
single underscores allowed between digits, accumulating the value. -/
def digitsUAux (acc : ℕ) : List Char → Option ℕ
  | [] => some acc
  | c :: rest =>
    if c.isDigit then digitsUAux (10 * acc + digitToNat c) rest
    else if c = '_' then
      match rest with
      | c2 :: rest2 =>
        if c2.isDigit then digitsUAux (10 * acc + digitToNat c2) rest2 else none
      | [] => none
    else none

/-- An unsigned run of digits accepted by Python `int()`: at least one
digit, single underscores only between digits. -/
def pyIntDigits (l : List Char) : Option ℕ :=
  match l with
  | c :: rest => if c.isDigit then digitsUAux (digitToNat c) rest else none
  | [] => none

/-- Embedding of Python `int(str)` (ASCII): strips whitespace, accepts an
optional sign followed by digits (with underscores between digits), and
fails — `ValueError` — on anything else. -/
def pyIntParse (l : List Char) : Option ℤ :=
  match pyStrip l with
  | '-' :: rest => (pyIntDigits rest).map (fun n => -(n : ℤ))
  | '+' :: rest => (pyIntDigits rest).map (fun n => (n : ℤ))
  | rest => (pyIntDigits rest).map (fun n => (n : ℤ))

/-- Outcome of the external `ffprobe` invocation, as seen by
`CoreVideo.get_video_dimensions`. -/
structure SubprocessResult where
  returncode : ℤ
  stdout : String
  stderr : String

/-- The pair of integers the probe parser extracts from the prober's
standard output (`stdout.strip().split("x")`, then `int` of the first two
components), or `none` when parsing would raise. -/
def parsedDims (stdout : String) : Option (ℤ × ℤ) :=
  match splitOnChar 'x' (pyStrip stdout.data) with
  | d0 :: d1 :: _ =>
    match pyIntParse d0, pyIntParse d1 with
    | some w, some h => some (w, h)
    | _, _ => none
  | _ => none

/-- Embedding of `CoreVideo.get_video_dimensions` (scripts/bench.py, lines
33-55): a nonzero prober status raises `RuntimeError`; otherwise the output
is stripped, split on `"x"`, and the first two components converted with
`int` — an uncaught `IndexError`/`ValueError` (modelled as `Except.error`)
when that fails, else the parsed pair. -/
def get_video_dimensions (r : SubprocessResult) : Except String (ℤ × ℤ) :=
  if r.returncode ≠ 0 then
    Except.error ("Error getting video dimensions: " ++ r.stderr)
  else
    match splitOnChar 'x' (pyStrip r.stdout.data) with
    | d0 :: d1 :: _ =>
      match pyIntParse d0, pyIntParse d1 with
      | some w, some h => Except.ok (w, h)
      | _, _ => Except.error "ValueError: invalid literal for int"
    | _ => Except.error "IndexError: list index out of range"

/-- The claim as stated for one probe outcome: failure happens exactly when
the status is nonzero or the output does not parse into two positive
integers, and a success carries two positive integers. -/
def probe_claim_at (r : SubprocessResult) : Prop :=
  ((∃ e, get_video_dimensions r = Except.error e) ↔
    (r.returncode ≠ 0 ∨
      ¬ ∃ w h : ℤ, 0 < w ∧ 0 < h ∧ parsedDims r.stdout = some (w, h))) ∧
  (∀ w h : ℤ, get_video_dimensions r = Except.ok (w, h) → 0 < w ∧ 0 < h)

/-- C9 counterexample: on prober output `"0x0"` with status 0, the code
succeeds and returns dimensions `(0, 0)` even though the output does not
parse into two *positive* integers — positivity is never checked. -/
theorem probe_positive_cex : ¬ probe_claim_at ⟨0, "0x0", ""⟩ := by
  intro hcl
  have h := hcl.2 0 0 rfl
  exact lt_irrefl 0 h.1

/-- C9 (amended): the probe fails exactly when the prober returns a nonzero
status or its output cannot be parsed into two integers (positivity is not
checked), and otherwise returns exactly the two parsed integers. -/
theorem get_video_dimensions_spec (r : SubprocessResult) :
    ((∃ e, get_video_dimensions r = Except.error e) ↔
      (r.returncode ≠ 0 ∨ parsedDims r.stdout = none)) ∧
    (∀ w h : ℤ, get_video_dimensions r = Except.ok (w, h) →
      parsedDims r.stdout = some (w, h)) := by
  unfold get_video_dimensions parsedDims
  by_cases hrc : r.returncode = 0
  · simp only [hrc, ne_eq, not_true_eq_false, if_neg, ite_false, not_false_eq_true]
    rcases splitOnChar 'x' (pyStrip r.stdout.data) with _ | ⟨d0, _ | ⟨d1, rest⟩⟩
    · simp
    · simp
    · rcases hp0 : pyIntParse d0 with _ | w0 <;>
        rcases hp1 : pyIntParse d1 with _ | h0 <;> simp [hp0, hp1]
  · simp [hrc]

/-- Witness for `get_video_dimensions_spec`: a zero-status probe with
output `"640x480"` succeeds, so the output parses to `(640, 480)`. -/
theorem get_video_dimensions_spec_witness :
    parsedDims "640x480" = some (640, 480) :=
  (get_video_dimensions_spec ⟨0, "640x480", ""⟩).2 640 480 rfl

/-- The measurements one (video, quality) cell contributes to the batch
tables of scripts/stats.py (lines 125-129): encode time, output size, PSNR,
SSIM and weighted XPSNR. -/
structure CellStats where
  time : ℚ
  size : ℤ
  psnr : ℚ
  ssim : ℚ
  wxpsnr : ℚ

/-- One CSV summary row emitted by `write_stats` (scripts/stats.py): the
quality value and the five averaged measurements. -/
structure SummaryRow where
  q : ℤ
  encode_time : ℚ
  output_filesize : ℤ
  psnr : ℚ
  ssim : ℚ
  wxpsnr : ℚ
deriving DecidableEq

/-- Python `int()` applied to a (here: exact) float — truncation toward
zero. -/
def pyTruncInt (x : ℚ) : ℤ := if 0 ≤ x then ⌊x⌋ else ⌈x⌉

/-- Embedding of `avg_time[q]` (scripts/stats.py, line 142):
`sum(cumulative_times[j][q] for j in range(i)) / i` for `i = n` videos,
where `meas j q` holds the recorded measurements of video `j` at quality
`q`. -/
def avg_time (n : ℕ) (meas : ℕ → ℤ → CellStats) (q : ℤ) : ℚ :=
  ((List.range n).map fun j => (meas j q).time).sum / (n : ℚ)

/-- Embedding of `avg_size[q]` (scripts/stats.py, line 143):
`int(sum(cumulative_sizes[j][q] for j in range(i)) / i)`. -/
def avg_size (n : ℕ) (meas : ℕ → ℤ → CellStats) (q : ℤ) : ℤ :=
  pyTruncInt (((List.range n).map fun j => ((meas j q).size : ℚ)).sum / (n : ℚ))

/-- Embedding of `avg_psnr[q]` (scripts/stats.py, line 144). -/
def avg_psnr (n : ℕ) (meas : ℕ → ℤ → CellStats) (q : ℤ) : ℚ :=
  ((List.range n).map fun j => (meas j q).psnr).sum / (n : ℚ)

/-- Embedding of `avg_ssim[q]` (scripts/stats.py, line 145). -/
def avg_ssim (n : ℕ) (meas : ℕ → ℤ → CellStats) (q : ℤ) : ℚ :=
  ((List.range n).map fun j => (meas j q).ssim).sum / (n : ℚ)

/-- Embedding of `avg_wxpsnr[q]` (scripts/stats.py, line 146). -/
def avg_wxpsnr (n : ℕ) (meas : ℕ → ℤ → CellStats) (q : ℤ) : ℚ :=
  ((List.range n).map fun j => (meas j q).wxpsnr).sum / (n : ℚ)

/-- Embedding of the final loop of `main` (scripts/stats.py, lines
141-155): one `write_stats` row per entry of `quality_list`, in list
order. -/
def summary_rows (quality_list : List ℤ) (n : ℕ)
    (meas : ℕ → ℤ → CellStats) : List SummaryRow :=
  quality_list.map fun q =>
    ⟨q, avg_time n meas q, avg_size n meas q, avg_psnr n meas q,
      avg_ssim n meas q, avg_wxpsnr n meas q⟩

/-- The spec's simple arithmetic mean of a list of values. -/
def arithMean (l : List ℚ) : ℚ := l.sum / (l.length : ℚ)

/-- A concrete two-video batch measurement: video 0 records encode time 2,
size 1000, PSNR 30, SSIM 9/10, weighted XPSNR 38 at every quality; video 1
records 4, 1001, 32, 8/10 and 40. -/
def measExample : ℕ → ℤ → CellStats := fun j _ =>
  if j = 0 then ⟨2, 1000, 30, 9/10, 38⟩ else ⟨4, 1001, 32, 8/10, 40⟩

/-- C6: each summary value is the simple arithmetic mean over the videos of
the recorded per-quality values, with the size mean truncated to an
integer; in particular two videos with weighted XPSNR 38 and 40 (and sizes
1000 and 1001) at quality 30 summarize to weighted XPSNR 39 and size 1000
(truncated 1000.5). -/
theorem batch_average_is_mean :
    (∀ n meas q, avg_time n meas q =
      arithMean ((List.range n).map fun j => (meas j q).time)) ∧
    (∀ n meas q, avg_psnr n meas q =
      arithMean ((List.range n).map fun j => (meas j q).psnr)) ∧
    (∀ n meas q, avg_ssim n meas q =
      arithMean ((List.range n).map fun j => (meas j q).ssim)) ∧
    (∀ n meas q, avg_wxpsnr n meas q =
      arithMean ((List.range n).map fun j => (meas j q).wxpsnr)) ∧
    (∀ n meas q, avg_size n meas q =
      pyTruncInt (arithMean ((List.range n).map fun j => ((meas j q).size : ℚ)))) ∧
    summary_rows [30] 2 measExample = [⟨30, 3, 1000, 31, 17/20, 39⟩] := by
  refine ⟨?_, ?_, ?_, ?_, ?_, ?_⟩
  · intro n meas q; simp [avg_time, arithMean]
  · intro n meas q; simp [avg_psnr, arithMean]
  · intro n meas q; simp [avg_ssim, arithMean]
  · intro n meas q; simp [avg_wxpsnr, arithMean]
  · intro n meas q; simp [avg_size, arithMean]
  · simp only [summary_rows, avg_time, avg_psnr, avg_ssim, avg_wxpsnr,
      avg_size, pyTruncInt, measExample, List.range_succ, List.range_zero,
      List.nil_append, List.map_cons, List.map_nil, List.sum_cons,
      List.sum_nil, List.map_append, List.sum_append, List.cons_append]
    norm_num

/-- C7: the batch emits exactly one summary row per entry of the quality
list, in the exact order of that list; in particular qualities
`[40, 20, 30]` give three rows whose quality column reads `40, 20, 30`. -/
theorem summary_rows_order :
    (∀ (qs : List ℤ) (n : ℕ) (meas : ℕ → ℤ → CellStats),
      (summary_rows qs n meas).map (fun row => row.q) = qs ∧
      (summary_rows qs n meas).length = qs.length) ∧
    (summary_rows [40, 20, 30] 2 measExample).map (fun row => row.q)
      = [40, 20, 30] := by
  refine ⟨fun qs n meas => ⟨?_, ?_⟩, ?_⟩
  · have hcomp : ((fun row : SummaryRow => row.q) ∘ fun q =>
        (⟨q, avg_time n meas q, avg_size n meas q, avg_psnr n meas q,
          avg_ssim n meas q, avg_wxpsnr n meas q⟩ : SummaryRow)) = id := rfl
    rw [summary_rows, List.map_map, hcomp, List.map_id]
  · simp [summary_rows]
  · decide

end WaveletBench
